import Mathlib

/-!
Verification of the REALestate.ai recommendation core.

The definitions below are shallow embeddings of the TypeScript route
handlers and the backend service of the repository.  Numeric values are
modelled as rationals (`ℚ`) where the code only adds, multiplies and
compares, and as reals (`ℝ`) where the code calls `Math.sqrt`,
trigonometric functions or `Math.atan2`.  Fallible steps (JSON parsing)
are modelled with explicit sum types.
-/

namespace REAL

/-! ## Vector similarity (`BackendService.calculateVectorSimilarity`)

The code accepts an embedding that is either already an array or a string
that is `JSON.parse`d; a parse failure or a non-array value is caught and
scored with the neutral default.  We model the parsed argument. -/

/-- A stored embedding as seen by `calculateVectorSimilarity`: either a
numeric array (possibly obtained by parsing a string), or a malformed
value (a string that fails to parse, or a parsed value that is not an
array). -/
inductive StoredEmbedding where
  | vec (v : List ℚ)
  | malformed
deriving DecidableEq

/-- The `minLength` from the code: the length of the overlapping part of the
two vectors. -/
def minLength (u p : List ℚ) : ℕ := min u.length p.length

/-- The `dotProduct` accumulator: sum of `userVec[i] * propertyVec[i]`
over `i < minLength`. -/
def dotMin (u p : List ℚ) : ℚ := (List.zipWith (· * ·) u p).sum

/-- The `userMagnitude` accumulator before the square root: sum of
`userVec[i] * userVec[i]` over `i < minLength`. -/
def userMag2 (u p : List ℚ) : ℚ :=
  ((u.take (minLength u p)).map (fun x => x * x)).sum

/-- The `propertyMagnitude` accumulator before the square root: sum of
`propertyVec[i] * propertyVec[i]` over `i < minLength`. -/
def propMag2 (u p : List ℚ) : ℚ :=
  ((p.take (minLength u p)).map (fun x => x * x)).sum

open Classical in
/-- The `BackendService.calculateVectorSimilarity`.  Malformed input is caught
(`catch` block / `Array.isArray` test) and scored `0.5`; a zero magnitude
is scored `0.5`; otherwise the cosine of the overlapping parts is
normalised into `[0,1]` by `(cosine + 1) / 2`. -/
noncomputable def calculateVectorSimilarity : StoredEmbedding → StoredEmbedding → ℝ
  | StoredEmbedding.vec u, StoredEmbedding.vec p =>
      let userMagnitude : ℝ := Real.sqrt ((userMag2 u p : ℚ) : ℝ)
      let propertyMagnitude : ℝ := Real.sqrt ((propMag2 u p : ℚ) : ℝ)
      if userMagnitude = 0 ∨ propertyMagnitude = 0 then 1 / 2
      else (((dotMin u p : ℚ) : ℝ) / (userMagnitude * propertyMagnitude) + 1) / 2
  | _, _ => 1 / 2

/-- Cosine similarity as the specification words it: `dot(u,p)` divided by
the product of the magnitudes, computed over the overlapping parts of the
two vectors. -/
noncomputable def cosineSpec (u p : List ℚ) : ℝ :=
  ((dotMin u p : ℚ) : ℝ) /
    (Real.sqrt ((userMag2 u p : ℚ) : ℝ) * Real.sqrt ((propMag2 u p : ℚ) : ℝ))

/-! ## Great-circle distance (`calculateDistance` in the recommendations
route)

`Math.atan2` is only called on values of `Math.sqrt`, so only the closed
first quadrant is reachable; `atan2NN` models `Math.atan2` there. -/

open Classical in
/-- JS `Math.atan2 y x` for nonnegative arguments: `arctan (y / x)` for
`x > 0`, `pi / 2` on the positive `y` axis, and `0` at the origin. -/
noncomputable def atan2NN (y x : ℝ) : ℝ :=
  if 0 < x then Real.arctan (y / x)
  else if 0 < y then Real.pi / 2
  else 0

/-- The `a` term of `calculateDistance` (the haversine of the angular
distance): `sin(dLat/2)^2 + cos(lat1) * cos(lat2) * sin(dLon/2)^2` with
the latitudes converted to radians. -/
noncomputable def havTerm (lat1 lon1 lat2 lon2 : ℝ) : ℝ :=
  let dLat := (lat2 - lat1) * Real.pi / 180
  let dLon := (lon2 - lon1) * Real.pi / 180
  Real.sin (dLat / 2) * Real.sin (dLat / 2) +
    Real.cos (lat1 * Real.pi / 180) * Real.cos (lat2 * Real.pi / 180) *
      (Real.sin (dLon / 2) * Real.sin (dLon / 2))

/-- The `calculateDistance` from the recommendations route: the haversine
great-circle distance with Earth radius `R = 6371` km, computed as
`R * 2 * atan2(sqrt a, sqrt (1 - a))`. -/
noncomputable def calculateDistance (lat1 lon1 lat2 lon2 : ℝ) : ℝ :=
  let a := havTerm lat1 lon1 lat2 lon2
  let c := 2 * atan2NN (Real.sqrt a) (Real.sqrt (1 - a))
  6371 * c

/-- The haversine distance as the specification words it:
`2 R arcsin (sqrt a)` with `R = 6371`. -/
noncomputable def haversineSpecDistance (lat1 lon1 lat2 lon2 : ℝ) : ℝ :=
  2 * 6371 * Real.arcsin (Real.sqrt (havTerm lat1 lon1 lat2 lon2))

/-! ## Data model (Supabase schema, `supabase-schema.sql`) -/

/-- Interaction kinds (`interaction_type` enum). -/
inductive IType where
  | like | skip | superlike
deriving DecidableEq, Repr

/-- A row of the `interaction` table.  The table has a unique constraint
on `(user_id, property_id)`. -/
structure InteractionRow where
  user_id : String
  property_id : String
  interaction_type : IType
  created_at : ℚ
deriving DecidableEq, Repr

/-- A row of the `property` table (the columns the recommendation code
reads).  Nullable columns are `Option`. -/
structure Property where
  id : String
  city : String
  state : String
  latitude : Option ℚ
  longitude : Option ℚ
  price : ℚ
  bedrooms : Option ℚ
  bathrooms : Option ℚ
  square_feet : Option ℚ
  lot_size : Option ℚ
  property_type : Option String
  year_built : Option ℚ
  cap_rate : Option ℚ
  property_embedding : Option StoredEmbedding
  created_at : ℚ
deriving DecidableEq

/-- A row of the `edge` table: a directed similarity edge between two
properties. -/
structure Edge where
  source_property_id : String
  target_property_id : String
  similarity_score : ℚ
  created_at : ℚ
deriving DecidableEq

/-- A row of the `app_user` table (the columns the recommendation code
reads). -/
structure AppUser where
  id : String
  user_embedding : Option StoredEmbedding
deriving DecidableEq

/-- The persistent state read by the recommendation code. -/
structure Db where
  properties : List Property
  interactions : List InteractionRow
  edges : List Edge
  users : List AppUser

/-- The `seenPropertyIds`: ids of properties the user has already swiped with
kind `like` or `skip` (superlikes are not excluded). -/
def seenPropertyIds (db : Db) (userId : String) : List String :=
  (db.interactions.filter (fun i => i.user_id = userId ∧
      (i.interaction_type = IType.like ∨ i.interaction_type = IType.skip))).map
    (fun i => i.property_id)

/-- The guard `if (seenPropertyIds.length > 0)` around the
`not id in (...)` filter of every query. -/
def excludeSeen (seen : List String) (l : List Property) : List Property :=
  if 0 < seen.length then l.filter (fun p => ¬ p.id ∈ seen) else l

/-- The filter set of the recommendations request body. -/
structure Filters where
  priceRange : Option (ℚ × ℚ)
  bedrooms : Option (ℚ × ℚ)
  bathrooms : Option (ℚ × ℚ)
  squareFeet : Option (ℚ × ℚ)
  yearBuilt : Option (ℚ × ℚ)
  capRate : Option (ℚ × ℚ)
  propertyTypes : List String
  states : List String
deriving DecidableEq

/-- The empty filter set (no constraint supplied). -/
def Filters.empty : Filters := ⟨none, none, none, none, none, none, [], []⟩

/-- A supplied `[lo, hi]` range filter translated to `gte lo` and
`lte hi`; a SQL `NULL` column value fails both comparisons. -/
def rangeOk (r : Option (ℚ × ℚ)) (v : Option ℚ) : Bool :=
  match r with
  | none => true
  | some (lo, hi) =>
      match v with
      | none => false
      | some x => decide (lo ≤ x) && decide (x ≤ hi)

/-- The cap-rate filter is an `or` of `cap_rate.is.null`,
`cap_rate.gte.lo` and `cap_rate.lte.hi`. -/
def capRateOk (r : Option (ℚ × ℚ)) (v : Option ℚ) : Bool :=
  match r with
  | none => true
  | some (lo, hi) =>
      match v with
      | none => true
      | some x => decide (lo ≤ x) || decide (x ≤ hi)

/-- Set-membership filter (`in` on `property_type` or `state`), applied
only when the supplied list is nonempty. -/
def setOk (allowed : List String) (v : Option String) : Bool :=
  if allowed.isEmpty then true
  else
    match v with
    | none => false
    | some s => decide (s ∈ allowed)

/-- The conjunction of all filters the recommendations route applies. -/
def matchesFilters (f : Filters) (p : Property) : Bool :=
  rangeOk f.priceRange (some p.price) &&
  rangeOk f.bedrooms p.bedrooms &&
  rangeOk f.bathrooms p.bathrooms &&
  rangeOk f.squareFeet p.square_feet &&
  rangeOk f.yearBuilt p.year_built &&
  capRateOk f.capRate p.cap_rate &&
  setOk f.propertyTypes p.property_type &&
  setOk f.states (some p.state)

/-- Model of the query order clause on created_at with ascending false:
a stable sort by creation timestamp, most recent first. -/
def sortByCreatedDesc (l : List Property) : List Property :=
  l.insertionSort (fun a b => b.created_at ≤ a.created_at)

/-! ## The recommendations route (`app/api/recommendations/route.ts`) -/

/-- A scored recommendation as built by the recommendations route.
Location-mode entries carry a `distance_km`; fallback entries do not. -/
structure ScoredRec where
  property : Property
  similarity_score : ℝ
  distance_km : Option ℝ
  reason : String

/-- The request body of the recommendations route.  `searchRadius`
defaults to `100` and `limit` to `50` in the code; callers of this model
pass the defaulted values. -/
structure RecRequest where
  userId : Option String
  location : Option (ℚ × ℚ)
  searchRadius : ℚ
  filters : Filters
  limit : ℕ

/-- Failure switches for the external store and the server client. -/
structure Faults where
  clientOk : Bool
  locationQueryFails : Bool
  fallbackQueryFails : Bool

/-- The fault-free environment. -/
def Faults.none : Faults := ⟨true, false, false⟩

/-- The three response shapes of the route: a recommendations list, the
400 validation error, or a 500 error (the `catch` block, or a missing
server client). -/
inductive RecResponse where
  | ok (recommendations : List ScoredRec)
  | validationError (msg : String)
  | serverError (msg : String)

/-- The location validity test
`!location?.lat || !location?.lng || isNaN(...)`: the location must be
present and both coordinates must be nonzero (`0` is falsy in JS; `NaN`
is not representable in `ℚ`). -/
def validLocation : Option (ℚ × ℚ) → Bool
  | none => false
  | some (la, ln) => !(decide (la = 0)) && !(decide (ln = 0))

/-- The location-mode candidate query: properties with both coordinates
present, satisfying every supplied filter, with seen properties
excluded. -/
def locationCandidates (db : Db) (f : Filters) (seen : List String) :
    List Property :=
  excludeSeen seen
    ((db.properties.filter
        (fun p => !(decide (p.latitude = none)) && !(decide (p.longitude = none)))).filter
      (matchesFilters f))

/-- The fallback candidate query: every supplied filter, seen properties
excluded, ordered by creation timestamp descending. -/
def fallbackCandidates (db : Db) (f : Filters) (seen : List String) :
    List Property :=
  sortByCreatedDesc (excludeSeen seen (db.properties.filter (matchesFilters f)))

/-- The distance from the query point to a candidate, as the route
computes it (`parseFloat` of the stored coordinates). -/
noncomputable def candDistance (la ln : ℚ) (p : Property) : ℝ :=
  calculateDistance ((la : ℚ) : ℝ) ((ln : ℚ) : ℝ)
    ((p.latitude.getD 0 : ℚ) : ℝ) ((p.longitude.getD 0 : ℚ) : ℝ)

open Classical in
/-- The location-mode scoring of the route: per candidate, compute the
haversine distance to the query point, keep it only when the distance is
at most the search radius, score it `1 - distance / radius`, and sort by
ascending distance. -/
noncomputable def locationScoredList (db : Db) (uid : String) (la ln : ℚ)
    (searchRadius : ℚ) (f : Filters) : List ScoredRec :=
  let seen := seenPropertyIds db uid
  let candidates := locationCandidates db f seen
  let scored := candidates.filterMap (fun p =>
    let d := candDistance la ln p
    if d ≤ ((searchRadius : ℚ) : ℝ) then
      some { property := p
             similarity_score := 1 - d / ((searchRadius : ℚ) : ℝ)
             distance_km := some d
             reason := "location_based" }
    else none)
  scored.insertionSort (fun a b => a.distance_km.getD 0 ≤ b.distance_km.getD 0)

/-- Tag a fallback property the way the route does: neutral score `0.3`,
no distance. -/
noncomputable def tagRouteFallback (reason : String) (p : Property) : ScoredRec :=
  { property := p, similarity_score := (3 : ℝ) / 10, distance_km := none
    reason := reason }

/-- The no-location branch of the route: the filtered fallback query,
tagged `fallback_no_location`. -/
noncomputable def noLocationBranch (db : Db) (uid : String) (f : Filters)
    (limit : ℕ) (faults : Faults) : RecResponse :=
  if faults.fallbackQueryFails then RecResponse.ok []
  else
    let fb := fallbackCandidates db f (seenPropertyIds db uid)
    if fb.isEmpty then RecResponse.ok []
    else RecResponse.ok ((fb.take limit).map (tagRouteFallback "fallback_no_location"))

/-- The location branch of the route: distance scoring, returned when at
least `min limit 10` candidates survive; otherwise the filtered fallback
query, tagged `fallback`, replaces it. -/
noncomputable def locationModeBranch (db : Db) (uid : String) (la ln : ℚ)
    (searchRadius : ℚ) (f : Filters) (limit : ℕ) (faults : Faults) : RecResponse :=
  if faults.locationQueryFails then RecResponse.ok []
  else
    let lp := locationCandidates db f (seenPropertyIds db uid)
    if lp.isEmpty then RecResponse.ok []
    else
      let recs := locationScoredList db uid la ln searchRadius f
      if min limit 10 ≤ recs.length then RecResponse.ok (recs.take limit)
      else
        let fb := if faults.fallbackQueryFails then []
          else fallbackCandidates db f (seenPropertyIds db uid)
        if fb.isEmpty then RecResponse.ok []
        else RecResponse.ok ((fb.take limit).map (tagRouteFallback "fallback"))

/-- The `POST /api/recommendations`.  A body of `none` models a request whose
JSON fails to parse: the exception reaches the catch block and a 500
error is returned. -/
noncomputable def postRecommendations (db : Db) (faults : Faults)
    (body : Option RecRequest) : RecResponse :=
  match body with
  | none => RecResponse.serverError "Internal server error"
  | some req =>
      match req.userId with
      | none => RecResponse.validationError "User ID is required"
      | some uid =>
          if !faults.clientOk then
            RecResponse.serverError "Failed to create server client"
          else
            match req.location with
            | some (la, ln) =>
                if validLocation (some (la, ln)) then
                  locationModeBranch db uid la ln req.searchRadius req.filters
                    req.limit faults
                else noLocationBranch db uid req.filters req.limit faults
            | none => noLocationBranch db uid req.filters req.limit faults

/-! ## The backend service (`lib/backend-service.ts getRecommendations`) -/

/-- A scored recommendation of the backend service. -/
structure BsScored where
  property : Property
  similarity_score : ℝ
  reason : String

/-- The result of `getRecommendations`: either tagged, scored
recommendations, or the raw property rows of `getProperties` (which carry
no score and no reason). -/
inductive BsResult where
  | tagged (recs : List BsScored)
  | plain (props : List Property)

/-- The `getProperties`: all properties ordered by creation timestamp
descending, truncated to `limit`; no seen-exclusion, no tagging. -/
def getPropertiesModel (db : Db) (limit : ℕ) : List Property :=
  (sortByCreatedDesc db.properties).take limit

/-- The `app_user.user_embedding` lookup. -/
def bsUserEmbedding (db : Db) (userId : String) : Option StoredEmbedding :=
  match db.users.find? (fun u => decide (u.id = userId)) with
  | none => none
  | some u => u.user_embedding

/-- The vector-search candidate query: properties with a non-null
embedding, seen properties excluded. -/
def bsVectorCandidates (db : Db) (seen : List String) : List Property :=
  excludeSeen seen
    (db.properties.filter (fun p => !(decide (p.property_embedding = none))))

open Classical in
/-- The vector-search scoring: per candidate the similarity to the user
embedding, sorted descending, truncated to `limit`, tagged
`vector_similarity`. -/
noncomputable def bsVectorRecs (db : Db) (emb : StoredEmbedding)
    (seen : List String) (limit : ℕ) : List BsScored :=
  ((((bsVectorCandidates db seen).map (fun p =>
      ({ property := p
         similarity_score :=
           calculateVectorSimilarity emb
             (p.property_embedding.getD StoredEmbedding.malformed)
         reason := "vector_similarity" } : BsScored))).insertionSort
    (fun a b => b.similarity_score ≤ a.similarity_score)).take limit)

/-- The graph edge fetch: all edges ordered by similarity descending,
truncated to `limit * 2`. -/
def bsGraphEdgesFetched (db : Db) (limit : ℕ) : List Edge :=
  (db.edges.insertionSort
    (fun a b => b.similarity_score ≤ a.similarity_score)).take (limit * 2)

/-- The `uniqueProperties` loop of the graph phase: walk the fetched
edges in order; for each edge whose target resolves to a property that is
neither seen nor already collected, append it with the similarity of that
edge; stop once `limit` entries are collected. -/
def bsGraphLoop (props : List Property) (seen : List String) (limit : ℕ) :
    List Edge → List BsScored → List BsScored
  | [], acc => acc
  | e :: es, acc =>
      match props.find? (fun p => decide (p.id = e.target_property_id)) with
      | none => bsGraphLoop props seen limit es acc
      | some p =>
          if p.id ∈ seen ∨ acc.any (fun s => decide (s.property.id = p.id)) then
            bsGraphLoop props seen limit es acc
          else
            let acc2 := acc ++
              [{ property := p
                 similarity_score := ((e.similarity_score : ℚ) : ℝ)
                 reason := "graph_traversal" }]
            if limit ≤ acc2.length then acc2
            else bsGraphLoop props seen limit es acc2

/-- The final fallback of the backend service: properties ordered by
creation timestamp descending, seen excluded, truncated, tagged
`fallback` with neutral score `0.5`. -/
noncomputable def bsFinalFallback (db : Db) (seen : List String) (limit : ℕ) :
    List BsScored :=
  ((sortByCreatedDesc (excludeSeen seen db.properties)).take limit).map
    (fun p => { property := p, similarity_score := (1 : ℝ) / 2
                reason := "fallback" })

/-- The graph phase of `getRecommendations`: when the edge fetch is
empty, fall back to the raw `getProperties` rows; otherwise run the
unique-properties loop, and when it collects nothing use the final
fallback. -/
noncomputable def bsGraphPhase (db : Db) (seen : List String) (limit : ℕ) :
    BsResult :=
  let edges := bsGraphEdgesFetched db limit
  if edges.isEmpty then BsResult.plain (getPropertiesModel db limit)
  else
    let recs := bsGraphLoop db.properties seen limit edges []
    if recs.isEmpty then BsResult.tagged (bsFinalFallback db seen limit)
    else BsResult.tagged recs

/-- The `BackendService.getRecommendations`: vector search when the user has
an embedding and candidates exist, otherwise the graph phase. -/
noncomputable def bsGetRecommendations (db : Db) (userId : String)
    (limit : ℕ) : BsResult :=
  let seen := seenPropertyIds db userId
  match bsUserEmbedding db userId with
  | some emb =>
      let cands := bsVectorCandidates db seen
      if cands.isEmpty then bsGraphPhase db seen limit
      else BsResult.tagged (bsVectorRecs db emb seen limit)
  | none => bsGraphPhase db seen limit

/-! ## User-embedding updaters (`updateUserEmbedding`)

The repository contains two variants: the user-interactions route applies
a 70/30 weighted update over liked and superliked properties, while the
interactions route recomputes a plain average over liked properties
only. -/

/-- The JSON value obtained by parsing a stored user embedding: an array,
or some other JSON value (whose JS truthiness decides the `0.3` weight). -/
inductive ParsedStored where
  | arr (l : List ℚ)
  | other (truthy : Bool)
deriving DecidableEq

/-- The `acc.map((val, i) => val + e[i] * w)`: componentwise addition of the
scaled entries of `e` to the accumulator; positions past the end of `e`
contribute nothing.  With `w = 1` this is the unscaled addition of the
plain-average variant. -/
def addScaled (w : ℚ) : List ℚ → List ℚ → List ℚ
  | [], _ => []
  | v :: acc, [] => (v + 0 * w) :: addScaled w acc []
  | v :: acc, x :: e => (v + x * w) :: addScaled w acc e

/-- The `updateUserEmbedding` of the user-interactions route: `base` is the
parse of the stored user embedding (`none` when there is none or parsing
throws).  When `base` is an array it contributes factor `0.7`
componentwise and the new embeddings share weight `0.3`; with no truthy
`base` the embeddings share weight `1`.  Returns `none` when there is
nothing to update. -/
def updateUserEmbeddingWeighted (base : Option ParsedStored)
    (embeddings : List (List ℚ)) : Option (List ℚ) :=
  match embeddings with
  | [] => none
  | e0 :: _ =>
      let embeddingSize := e0.length
      let start : List ℚ :=
        match base with
        | some (ParsedStored.arr b) =>
            (List.range embeddingSize).map (fun i => b.getD i 0 * (7 / 10))
        | _ => List.replicate embeddingSize 0
      let newWeight : ℚ :=
        match base with
        | some (ParsedStored.arr _) => 3 / 10
        | some (ParsedStored.other true) => 3 / 10
        | _ => 1
      let weightPerEmbedding := newWeight / (embeddings.length : ℚ)
      some (embeddings.foldl (fun acc e => addScaled weightPerEmbedding acc e) start)

/-- The `updateUserEmbedding` of the interactions route: the plain
componentwise average of the given embeddings; the stored user embedding
is never read. -/
def updateUserEmbeddingPlain (embeddings : List (List ℚ)) : Option (List ℚ) :=
  match embeddings with
  | [] => none
  | e0 :: _ =>
      let start := List.replicate e0.length (0 : ℚ)
      some ((embeddings.foldl (fun acc e => addScaled 1 acc e) start).map
        (fun v => v / (embeddings.length : ℚ)))

/-- The gather of the user-interactions updater: property ids the user
liked or superliked. -/
def likedOrSuperIds (db : Db) (uid : String) : List String :=
  (db.interactions.filter (fun i => i.user_id = uid ∧
      (i.interaction_type = IType.like ∨
        i.interaction_type = IType.superlike))).map (fun i => i.property_id)

/-- The gather of the interactions-route updater and of the SQL function:
property ids with an interaction of kind `like` only (superlikes are not
gathered). -/
def likedOnlyIds (db : Db) (uid : String) : List String :=
  (db.interactions.filter (fun i => i.user_id = uid ∧
      i.interaction_type = IType.like)).map (fun i => i.property_id)

/-- Componentwise sum of a family of embeddings at index `i` (used to
state the closed forms of the updaters). -/
def sumAt (embeddings : List (List ℚ)) (i : ℕ) : ℚ :=
  (embeddings.map (fun e => e.getD i 0)).sum

/-! ## Interaction recording -/

/-- The `upsert` on the `interaction` table with
`onConflict: user_id,property_id` (interactions route): an existing row
for the pair is overwritten with the new kind and timestamp, otherwise a
row is appended.  The attempt always succeeds. -/
def upsertInteraction (log : List InteractionRow) (u p : String)
    (k : IType) (t : ℚ) : List InteractionRow :=
  if log.any (fun r => decide (r.user_id = u) && decide (r.property_id = p)) then
    log.map (fun r =>
      if r.user_id = u ∧ r.property_id = p then
        { r with interaction_type := k, created_at := t }
      else r)
  else log ++ [⟨u, p, k, t⟩]

/-- Plain `insert` on the `interaction` table (user-interactions route):
the unique constraint on `(user_id, property_id)` makes a second insert
for the same pair fail with Postgres error 23505, which the handler
rethrows. -/
def insertInteraction (log : List InteractionRow) (u p : String)
    (k : IType) (t : ℚ) : Except String (List InteractionRow) :=
  if log.any (fun r => decide (r.user_id = u) && decide (r.property_id = p)) then
    Except.error "23505"
  else Except.ok (log ++ [⟨u, p, k, t⟩])

/-- The check-then-insert variant of the interactions handler found in
the repository: a row is appended only when the pair is absent; a
duplicate attempt leaves the log unchanged and still succeeds. -/
def insertIfAbsent (log : List InteractionRow) (u p : String)
    (k : IType) (t : ℚ) : List InteractionRow :=
  if log.any (fun r => decide (r.user_id = u) && decide (r.property_id = p)) then
    log
  else log ++ [⟨u, p, k, t⟩]

/-- The `(user, property, kind)` content of a log row (the state the
idempotence property talks about, timestamps aside). -/
def projUPK (r : InteractionRow) : String × String × IType :=
  (r.user_id, r.property_id, r.interaction_type)

/-! ## The SQL function `get_property_recommendations` (graph term) -/

/-- The edges feeding the `graph_boosts` group of a target `t`: edges
whose source the user liked and whose target is `t`. -/
def graphBoostEdges (db : Db) (uid : String) (t : String) : List Edge :=
  db.edges.filter (fun e => decide (e.source_property_id ∈ likedOnlyIds db uid)
    && decide (e.target_property_id = t))

/-- The `graph_boosts` CTE of the SQL function: a target reached from
liked properties and not itself liked is scored
`AVG(similarity_score) * 0.1`. -/
def graphBoostScore (db : Db) (uid : String) (t : String) : Option ℚ :=
  if t ∈ likedOnlyIds db uid then none
  else
    let es := graphBoostEdges db uid t
    if es.isEmpty then none
    else some ((es.map (fun e => e.similarity_score)).sum / (es.length : ℚ)
      * (1 / 10))

/-! ## Concrete states used as witnesses and counterexamples -/

/-- A property located exactly at latitude 1, longitude 1. -/
def exPropAt11 : Property :=
  { id := "p1", city := "c", state := "CA", latitude := some 1
    longitude := some 1, price := 100, bedrooms := none, bathrooms := none
    square_feet := none, lot_size := none, property_type := none
    year_built := none, cap_rate := none, property_embedding := none
    created_at := 1 }

/-- A property without coordinates. -/
def exPropNoCoords : Property :=
  { id := "p2", city := "c", state := "CA", latitude := none
    longitude := none, price := 100, bedrooms := none, bathrooms := none
    square_feet := none, lot_size := none, property_type := none
    year_built := none, cap_rate := none, property_embedding := none
    created_at := 2 }

/-- A store holding only the property at (1, 1). -/
def exDbAt11 : Db :=
  { properties := [exPropAt11], interactions := [], edges := [], users := [] }

/-- A store where the user has only superliked a property. -/
def exDbSuper : Db :=
  { properties := [exPropAt11]
    interactions := [InteractionRow.mk "u" "p2" IType.superlike 1]
    edges := [], users := [] }

/-- A target property for edge traversal. -/
def exPropT : Property :=
  { id := "T", city := "c", state := "CA", latitude := none
    longitude := none, price := 100, bedrooms := none, bathrooms := none
    square_feet := none, lot_size := none, property_type := none
    year_built := none, cap_rate := none, property_embedding := none
    created_at := 3 }

/-- An edge from the (never liked) property `S` to `T` with weight 0.9. -/
def exEdgeST : Edge :=
  { source_property_id := "S", target_property_id := "T"
    similarity_score := 9 / 10, created_at := 1 }

/-- A store with one edge and a user who has liked nothing. -/
def exDbGraphNoLikes : Db :=
  { properties := [exPropT], interactions := [], edges := [exEdgeST]
    users := [] }

/-- A store with one edge out of a liked property. -/
def exDbGraphLiked : Db :=
  { properties := [exPropT]
    interactions := [InteractionRow.mk "u" "S" IType.like 1]
    edges := [exEdgeST], users := [] }

/-- A store whose only user has no embedding and whose edge table is
empty. -/
def exDbNoEmbUser : Db :=
  { properties := [exPropAt11], interactions := [], edges := []
    users := [AppUser.mk "u" none] }

/-- A store where the embedding-less user has liked the only property and
the edge table is empty: the empty-edge branch of the backend service
then returns raw rows with no seen filter. -/
def exDbSeenLiked : Db :=
  { properties := [exPropAt11]
    interactions := [InteractionRow.mk "u" "p1" IType.like 1]
    edges := [], users := [AppUser.mk "u" none] }

/-! ## Arithmetic lemmas -/

/-- A sum of squares of rationals is nonnegative. -/
lemma sumSq_nonneg (l : List ℚ) : 0 ≤ (l.map (fun x => x * x)).sum := by
  apply List.sum_nonneg
  intro y hy
  rcases List.mem_map.mp hy with ⟨x, -, rfl⟩
  exact mul_self_nonneg x

/-- Cauchy-Schwarz for the truncated accumulators of the code:
the square of the dot product is at most the product of the squared
magnitudes. -/
lemma dotMin_sq_le (u p : List ℚ) :
    dotMin u p ^ 2 ≤ userMag2 u p * propMag2 u p := by
  induction u generalizing p with
  | nil =>
      simp [dotMin, userMag2, propMag2, minLength]
  | cons x u ih =>
      cases p with
      | nil => simp [dotMin, userMag2, propMag2, minLength]
      | cons y p =>
          have hm : minLength (x :: u) (y :: p) = minLength u p + 1 := by
            simp [minLength, Nat.succ_min_succ]
          have hd : dotMin (x :: u) (y :: p) = x * y + dotMin u p := by
            simp [dotMin]
          have ha : userMag2 (x :: u) (y :: p) = x * x + userMag2 u p := by
            simp [userMag2, hm, List.take_succ_cons]
          have hb : propMag2 (x :: u) (y :: p) = y * y + propMag2 u p := by
            simp [propMag2, hm, List.take_succ_cons]
          have h1 := ih p
          have h2 : 0 ≤ userMag2 u p := sumSq_nonneg _
          have h3 : 0 ≤ propMag2 u p := sumSq_nonneg _
          have hs : 0 ≤ userMag2 u p * propMag2 u p - dotMin u p ^ 2 :=
            sub_nonneg.mpr h1
          rw [hd, ha, hb]
          rcases eq_or_lt_of_le h3 with hb0 | hb0
          · have hd0 : dotMin u p = 0 := by nlinarith
            rw [hd0, ← hb0]
            nlinarith [mul_nonneg h2 (sq_nonneg y)]
          · nlinarith [sq_nonneg (x * propMag2 u p - y * dotMin u p),
              mul_nonneg (sq_nonneg y) hs, mul_nonneg hs (le_of_lt hb0)]

/-- Unfolding of the similarity in the degenerate (zero magnitude) case. -/
lemma calculateVectorSimilarity_degenerate (u p : List ℚ)
    (h : userMag2 u p = 0 ∨ propMag2 u p = 0) :
    calculateVectorSimilarity (StoredEmbedding.vec u) (StoredEmbedding.vec p)
      = 1 / 2 := by
  have hcond : Real.sqrt ((userMag2 u p : ℚ) : ℝ) = 0 ∨
      Real.sqrt ((propMag2 u p : ℚ) : ℝ) = 0 := by
    rcases h with h | h
    · exact Or.inl (by rw [h]; simp)
    · exact Or.inr (by rw [h]; simp)
  simp only [calculateVectorSimilarity]
  rw [if_pos hcond]

/-- Unfolding of the similarity in the non-degenerate case: it is the
normalised cosine of the overlapping parts. -/
lemma calculateVectorSimilarity_nondegenerate (u p : List ℚ)
    (hu : userMag2 u p ≠ 0) (hp : propMag2 u p ≠ 0) :
    calculateVectorSimilarity (StoredEmbedding.vec u) (StoredEmbedding.vec p)
      = (cosineSpec u p + 1) / 2 := by
  have hu' : (0 : ℝ) < ((userMag2 u p : ℚ) : ℝ) := by
    have := sumSq_nonneg (u.take (minLength u p))
    have : (0 : ℝ) ≤ ((userMag2 u p : ℚ) : ℝ) := by
      exact_mod_cast sumSq_nonneg (u.take (minLength u p))
    rcases lt_or_eq_of_le this with h | h
    · exact h
    · exact absurd (by exact_mod_cast h.symm) hu
  have hp' : (0 : ℝ) < ((propMag2 u p : ℚ) : ℝ) := by
    have : (0 : ℝ) ≤ ((propMag2 u p : ℚ) : ℝ) := by
      exact_mod_cast sumSq_nonneg (p.take (minLength u p))
    rcases lt_or_eq_of_le this with h | h
    · exact h
    · exact absurd (by exact_mod_cast h.symm) hp
  have hcond : ¬(Real.sqrt ((userMag2 u p : ℚ) : ℝ) = 0 ∨
      Real.sqrt ((propMag2 u p : ℚ) : ℝ) = 0) := by
    push_neg
    constructor
    · exact ne_of_gt (Real.sqrt_pos.mpr hu')
    · exact ne_of_gt (Real.sqrt_pos.mpr hp')
  simp only [calculateVectorSimilarity]
  rw [if_neg hcond]
  rfl

/-- The similarity value always lies in `[0,1]`. -/
lemma calculateVectorSimilarity_mem_unit (e1 e2 : StoredEmbedding) :
    0 ≤ calculateVectorSimilarity e1 e2 ∧ calculateVectorSimilarity e1 e2 ≤ 1 := by
  cases e1 with
  | malformed =>
      cases e2 <;> simp [calculateVectorSimilarity] <;> norm_num
  | vec u =>
      cases e2 with
      | malformed => simp [calculateVectorSimilarity]; norm_num
      | vec p =>
          by_cases hu : userMag2 u p = 0
          · rw [calculateVectorSimilarity_degenerate u p (Or.inl hu)]; norm_num
          by_cases hp : propMag2 u p = 0
          · rw [calculateVectorSimilarity_degenerate u p (Or.inr hp)]; norm_num
          rw [calculateVectorSimilarity_nondegenerate u p hu hp]
          have hA : (0 : ℝ) ≤ ((userMag2 u p : ℚ) : ℝ) := by
            exact_mod_cast sumSq_nonneg (u.take (minLength u p))
          have hB : (0 : ℝ) ≤ ((propMag2 u p : ℚ) : ℝ) := by
            exact_mod_cast sumSq_nonneg (p.take (minLength u p))
          have hA' : (0 : ℝ) < ((userMag2 u p : ℚ) : ℝ) :=
            lt_of_le_of_ne hA (fun h => hu (by exact_mod_cast h.symm))
          have hB' : (0 : ℝ) < ((propMag2 u p : ℚ) : ℝ) :=
            lt_of_le_of_ne hB (fun h => hp (by exact_mod_cast h.symm))
          have hCS : (((dotMin u p : ℚ) : ℝ)) ^ 2 ≤
              ((userMag2 u p : ℚ) : ℝ) * ((propMag2 u p : ℚ) : ℝ) := by
            exact_mod_cast dotMin_sq_le u p
          have habs : |((dotMin u p : ℚ) : ℝ)| ≤
              Real.sqrt ((userMag2 u p : ℚ) : ℝ) *
                Real.sqrt ((propMag2 u p : ℚ) : ℝ) := by
            have h1 : Real.sqrt ((((dotMin u p : ℚ) : ℝ)) ^ 2) ≤
                Real.sqrt (((userMag2 u p : ℚ) : ℝ) * ((propMag2 u p : ℚ) : ℝ)) :=
              Real.sqrt_le_sqrt hCS
            rwa [Real.sqrt_sq_eq_abs, Real.sqrt_mul hA] at h1
          have hM : (0 : ℝ) < Real.sqrt ((userMag2 u p : ℚ) : ℝ) *
              Real.sqrt ((propMag2 u p : ℚ) : ℝ) :=
            mul_pos (Real.sqrt_pos.mpr hA') (Real.sqrt_pos.mpr hB')
          rcases abs_le.mp habs with ⟨hlow, hhigh⟩
          have hdivhigh : cosineSpec u p ≤ 1 :=
            (div_le_one hM).mpr hhigh
          have hdivlow : (-1 : ℝ) ≤ cosineSpec u p := by
            rw [cosineSpec]
            rw [le_div_iff₀ hM]
            linarith
          constructor <;> [linarith; linarith]

/-- Claim C1: the vector-similarity score equals the normalised cosine
`(cosine + 1) / 2` over the overlapping parts of the vectors; it is `0.5`
when either vector has zero magnitude, when a stored embedding is
malformed, and for an all-zero vector; and it lies in `[0,1]` for every
input (the computation is total, so no input makes it throw). -/
theorem claim1_vector_similarity_score :
    (∀ e, calculateVectorSimilarity StoredEmbedding.malformed e = 1 / 2 ∧
      calculateVectorSimilarity e StoredEmbedding.malformed = 1 / 2) ∧
    (∀ u p : List ℚ, userMag2 u p = 0 ∨ propMag2 u p = 0 →
      calculateVectorSimilarity (StoredEmbedding.vec u) (StoredEmbedding.vec p)
        = 1 / 2) ∧
    (∀ u p : List ℚ, userMag2 u p ≠ 0 → propMag2 u p ≠ 0 →
      calculateVectorSimilarity (StoredEmbedding.vec u) (StoredEmbedding.vec p)
        = (cosineSpec u p + 1) / 2) ∧
    (∀ n : ℕ, ∀ p : List ℚ,
      calculateVectorSimilarity (StoredEmbedding.vec (List.replicate n 0))
        (StoredEmbedding.vec p) = 1 / 2) ∧
    (∀ e1 e2, 0 ≤ calculateVectorSimilarity e1 e2 ∧
      calculateVectorSimilarity e1 e2 ≤ 1) := by
  refine ⟨?_, ?_, ?_, ?_, ?_⟩
  · intro e
    constructor
    · cases e <;> simp [calculateVectorSimilarity]
    · cases e <;> simp [calculateVectorSimilarity]
  · exact calculateVectorSimilarity_degenerate
  · exact calculateVectorSimilarity_nondegenerate
  · intro n p
    apply calculateVectorSimilarity_degenerate
    left
    simp [userMag2, List.take_replicate, List.map_replicate, List.sum_replicate]
  · exact calculateVectorSimilarity_mem_unit

/-- Witness for C1 at concrete inputs: the vectors `[1, 2]` and `[2, 0, 9]`
have nonzero magnitudes over their overlapping parts, and the score is the
normalised cosine there. -/
theorem claim1_witness :
    calculateVectorSimilarity (StoredEmbedding.vec [1, 2])
        (StoredEmbedding.vec [2, 0, 9])
      = (cosineSpec [1, 2] [2, 0, 9] + 1) / 2 :=
  claim1_vector_similarity_score.2.2.1 [1, 2] [2, 0, 9]
    (by norm_num [userMag2, minLength]) (by norm_num [propMag2, minLength])

/-! ## Distance lemmas -/

/-- The `atan2NN` with `x > 0` is `arctan (y / x)`. -/
lemma atan2NN_pos_x (y x : ℝ) (hx : 0 < x) :
    atan2NN y x = Real.arctan (y / x) := by
  unfold atan2NN
  rw [if_pos hx]

/-- The `atan2NN` of nonnegative `y` is nonnegative. -/
lemma atan2NN_nonneg (y x : ℝ) (hy : 0 ≤ y) : 0 ≤ atan2NN y x := by
  unfold atan2NN
  split_ifs with hx hy'
  · have h1 : (0 : ℝ) ≤ y / x := div_nonneg hy (le_of_lt hx)
    have h2 := Real.arctan_strictMono.monotone h1
    rwa [Real.arctan_zero] at h2
  · linarith [Real.pi_pos]
  · exact le_refl 0

/-- A haversine distance is never negative. -/
lemma calculateDistance_nonneg (lat1 lon1 lat2 lon2 : ℝ) :
    0 ≤ calculateDistance lat1 lon1 lat2 lon2 := by
  have h := atan2NN_nonneg (Real.sqrt (havTerm lat1 lon1 lat2 lon2))
    (Real.sqrt (1 - havTerm lat1 lon1 lat2 lon2)) (Real.sqrt_nonneg _)
  show 0 ≤ 6371 * (2 * atan2NN (Real.sqrt (havTerm lat1 lon1 lat2 lon2))
    (Real.sqrt (1 - havTerm lat1 lon1 lat2 lon2)))
  linarith

/-- The haversine term of a point against itself vanishes. -/
lemma havTerm_self (la ln : ℝ) : havTerm la ln la ln = 0 := by
  simp [havTerm]

/-- The distance from a point to itself is zero. -/
lemma calculateDistance_self (la ln : ℝ) : calculateDistance la ln la ln = 0 := by
  have h := havTerm_self la ln
  show 6371 * (2 * atan2NN (Real.sqrt (havTerm la ln la ln))
    (Real.sqrt (1 - havTerm la ln la ln))) = 0
  rw [h]
  norm_num [atan2NN]

/-- On the meaningful range of the haversine term, `calculateDistance`
agrees with the textbook haversine formula `2 R arcsin (sqrt a)`. -/
lemma calculateDistance_eq_haversineSpec (lat1 lon1 lat2 lon2 : ℝ)
    (h0 : 0 ≤ havTerm lat1 lon1 lat2 lon2)
    (h1 : havTerm lat1 lon1 lat2 lon2 ≤ 1) :
    calculateDistance lat1 lon1 lat2 lon2 =
      haversineSpecDistance lat1 lon1 lat2 lon2 := by
  show 6371 * (2 * atan2NN (Real.sqrt (havTerm lat1 lon1 lat2 lon2))
      (Real.sqrt (1 - havTerm lat1 lon1 lat2 lon2)))
    = 2 * 6371 * Real.arcsin (Real.sqrt (havTerm lat1 lon1 lat2 lon2))
  rcases eq_or_lt_of_le h1 with heq | hlt
  · rw [heq]
    norm_num [atan2NN, Real.arcsin_one]
    ring
  · have hpos : 0 < Real.sqrt (1 - havTerm lat1 lon1 lat2 lon2) :=
      Real.sqrt_pos.mpr (by linarith)
    have hlt1 : Real.sqrt (havTerm lat1 lon1 lat2 lon2) < 1 := by
      have := Real.sqrt_lt_sqrt h0 hlt
      rwa [Real.sqrt_one] at this
    have hmem : Real.sqrt (havTerm lat1 lon1 lat2 lon2) ∈
        Set.Ioo (-(1 : ℝ)) 1 :=
      ⟨lt_of_lt_of_le (by norm_num) (Real.sqrt_nonneg _), hlt1⟩
    have harc := Real.arcsin_eq_arctan hmem
    rw [Real.sq_sqrt h0] at harc
    rw [atan2NN_pos_x _ _ hpos, harc]
    ring

/-- Claim C2: in location mode the distance is the haversine great-circle
distance with Earth radius 6371 km; a candidate farther than the search
radius never enters the scored list; a candidate within the radius enters
it with score `1 - distance / radius`, which lies in `[0,1]`. -/
theorem claim2_location_priority_scoring :
    (∀ lat1 lon1 lat2 lon2 : ℝ,
        0 ≤ havTerm lat1 lon1 lat2 lon2 → havTerm lat1 lon1 lat2 lon2 ≤ 1 →
        calculateDistance lat1 lon1 lat2 lon2 =
          haversineSpecDistance lat1 lon1 lat2 lon2) ∧
    (∀ (db : Db) (uid : String) (la ln radius : ℚ) (f : Filters)
        (p : Property), 0 < radius →
        p ∈ locationCandidates db f (seenPropertyIds db uid) →
        (((radius : ℚ) : ℝ) < candDistance la ln p →
            ∀ e ∈ locationScoredList db uid la ln radius f, e.property ≠ p) ∧
        (candDistance la ln p ≤ ((radius : ℚ) : ℝ) →
            ∃ e ∈ locationScoredList db uid la ln radius f,
              e.property = p ∧
              e.similarity_score = 1 - candDistance la ln p / ((radius : ℚ) : ℝ) ∧
              e.distance_km = some (candDistance la ln p) ∧
              0 ≤ e.similarity_score ∧ e.similarity_score ≤ 1)) := by
  constructor
  · exact calculateDistance_eq_haversineSpec
  · intro db uid la ln radius f p hr hp
    have hrR : (0 : ℝ) < ((radius : ℚ) : ℝ) := by exact_mod_cast hr
    constructor
    · intro hfar e he hep
      rw [locationScoredList, List.mem_insertionSort] at he
      rcases List.mem_filterMap.mp he with ⟨q, hq, hgq⟩
      by_cases hcond : candDistance la ln q ≤ ((radius : ℚ) : ℝ)
      · rw [if_pos hcond] at hgq
        have hq' : e.property = q := by
          cases hgq
          rfl
        have hqp : q = p := hq'.symm.trans hep
        rw [hqp] at hcond
        exact absurd hcond (not_le.mpr hfar)
      · rw [if_neg hcond] at hgq
        exact Option.noConfusion hgq
    · intro hnear
      have hmem : (ScoredRec.mk p (1 - candDistance la ln p / ((radius : ℚ) : ℝ))
          (some (candDistance la ln p)) "location_based") ∈
          locationScoredList db uid la ln radius f := by
        rw [locationScoredList, List.mem_insertionSort]
        apply List.mem_filterMap.mpr
        refine ⟨p, hp, ?_⟩
        rw [if_pos hnear]
      refine ⟨_, hmem, rfl, rfl, rfl, ?_, ?_⟩
      · have hd0 : 0 ≤ candDistance la ln p := calculateDistance_nonneg _ _ _ _
        have h1 : candDistance la ln p / ((radius : ℚ) : ℝ) ≤ 1 :=
          (div_le_one hrR).mpr hnear
        show (0 : ℝ) ≤ 1 - candDistance la ln p / ((radius : ℚ) : ℝ)
        linarith
      · have hd0 : 0 ≤ candDistance la ln p := calculateDistance_nonneg _ _ _ _
        have h2 : 0 ≤ candDistance la ln p / ((radius : ℚ) : ℝ) :=
          div_nonneg hd0 (le_of_lt hrR)
        show (1 : ℝ) - candDistance la ln p / ((radius : ℚ) : ℝ) ≤ 1
        linarith

/-- Witness for C2: with the query point on the only stored property the
distance is zero, the property is scored and its score is in `[0,1]`. -/
theorem claim2_witness :
    ∃ e ∈ locationScoredList exDbAt11 "u" 1 1 100 Filters.empty,
      e.property = exPropAt11 ∧
      e.similarity_score = 1 - candDistance 1 1 exPropAt11 / ((100 : ℚ) : ℝ) ∧
      e.distance_km = some (candDistance 1 1 exPropAt11) ∧
      0 ≤ e.similarity_score ∧ e.similarity_score ≤ 1 := by
  have hd : candDistance 1 1 exPropAt11 = 0 := by
    unfold candDistance
    norm_num [exPropAt11, calculateDistance_self]
  exact (claim2_location_priority_scoring.2 exDbAt11 "u" 1 1 100 Filters.empty
    exPropAt11 (by norm_num) (by decide)).2 (by rw [hd]; norm_num)

/-! ## Embedding updater lemmas -/

/-- The `addScaled` keeps the accumulator length. -/
lemma addScaled_length (w : ℚ) : ∀ (acc e : List ℚ),
    (addScaled w acc e).length = acc.length
  | [], _ => rfl
  | _ :: acc, [] => by simp [addScaled, addScaled_length w acc []]
  | _ :: acc, _ :: e => by simp [addScaled, addScaled_length w acc e]

/-- Componentwise reading of `addScaled`, inside the accumulator. -/
lemma addScaled_getD (w : ℚ) : ∀ (acc e : List ℚ) (i : ℕ), i < acc.length →
    (addScaled w acc e).getD i 0 = acc.getD i 0 + e.getD i 0 * w
  | [], _, i, h => absurd h (by simp)
  | v :: acc, [], 0, _ => by simp [addScaled]
  | v :: acc, [], i + 1, h => by
      have ih := addScaled_getD w acc [] i (by simpa using h)
      simpa [addScaled] using ih
  | v :: acc, x :: e, 0, _ => by simp [addScaled]
  | v :: acc, x :: e, i + 1, h => by
      have ih := addScaled_getD w acc e i (by simpa using h)
      simpa [addScaled] using ih

/-- The fold of `addScaled` keeps the start length. -/
lemma foldl_addScaled_length (w : ℚ) : ∀ (embs : List (List ℚ)) (start : List ℚ),
    (embs.foldl (fun acc e => addScaled w acc e) start).length = start.length
  | [], _ => rfl
  | e :: es, start => by
      simp only [List.foldl_cons]
      rw [foldl_addScaled_length w es, addScaled_length]

/-- Closed form of the fold of `addScaled`: start value plus the scaled
componentwise sum. -/
lemma foldl_addScaled_getD (w : ℚ) : ∀ (embs : List (List ℚ)) (start : List ℚ)
    (i : ℕ), i < start.length →
    (embs.foldl (fun acc e => addScaled w acc e) start).getD i 0 =
      start.getD i 0 + sumAt embs i * w
  | [], start, i, _ => by simp [sumAt]
  | e :: es, start, i, h => by
      have h2 : i < (addScaled w start e).length := by
        rw [addScaled_length]; exact h
      have ih := foldl_addScaled_getD w es (addScaled w start e) i h2
      simp only [List.foldl_cons]
      rw [ih, addScaled_getD w start e i h]
      simp only [sumAt, List.map_cons, List.sum_cons]
      ring

/-- Reading a mapped `range`. -/
lemma range_map_getD (n : ℕ) (f : ℕ → ℚ) (i : ℕ) (h : i < n) :
    ((List.range n).map f).getD i 0 = f i := by
  rw [List.getD_eq_getElem?_getD, List.getElem?_map, List.getElem?_range h]
  rfl

/-- Reading a componentwise division. -/
lemma map_div_getD (l : List ℚ) (c : ℚ) (i : ℕ) :
    (l.map (fun v => v / c)).getD i 0 = l.getD i 0 / c := by
  cases hl : l[i]? with
  | none => simp [List.getD_eq_getElem?_getD, hl, zero_div]
  | some v => simp [List.getD_eq_getElem?_getD, hl]

/-- Claim C3 (amended): the user-interactions updater stores
`0.7 * E_old + 0.3 * A` componentwise when a prior embedding parses, and
the plain average `A` when there is none; the interactions-route updater
always stores the plain average (the prior embedding is never read) and
gathers `like` interactions only. -/
theorem claim3_embedding_update :
    (∀ (E e0 : List ℚ) (es : List (List ℚ)) (i : ℕ),
        (∀ e ∈ e0 :: es, e.length = E.length) → i < E.length →
        ∃ r, updateUserEmbeddingWeighted (some (ParsedStored.arr E)) (e0 :: es)
            = some r ∧
          r.length = E.length ∧
          r.getD i 0 = 7 / 10 * E.getD i 0 +
            3 / 10 * (sumAt (e0 :: es) i / (((e0 :: es).length : ℕ) : ℚ))) ∧
    (∀ (e0 : List ℚ) (es : List (List ℚ)) (i : ℕ), i < e0.length →
        ∃ r, updateUserEmbeddingWeighted none (e0 :: es) = some r ∧
          r.getD i 0 = sumAt (e0 :: es) i / (((e0 :: es).length : ℕ) : ℚ)) ∧
    (∀ (e0 : List ℚ) (es : List (List ℚ)) (i : ℕ), i < e0.length →
        ∃ r, updateUserEmbeddingPlain (e0 :: es) = some r ∧
          r.getD i 0 = sumAt (e0 :: es) i / (((e0 :: es).length : ℕ) : ℚ)) ∧
    (∀ (db : Db) (uid pid : String), pid ∈ likedOnlyIds db uid →
        ∃ i ∈ db.interactions, i.user_id = uid ∧ i.property_id = pid ∧
          i.interaction_type = IType.like) := by
  have hlenpos : ∀ (e0 : List ℚ) (es : List (List ℚ)),
      (0 : ℚ) < (((e0 :: es).length : ℕ) : ℚ) := by
    intro e0 es
    have : 0 < (e0 :: es).length := by simp
    exact_mod_cast this
  refine ⟨?_, ?_, ?_, ?_⟩
  · intro E e0 es i hlen hi
    have he0 : e0.length = E.length := hlen e0 (by simp)
    refine ⟨_, rfl, ?_, ?_⟩
    · rw [foldl_addScaled_length]
      simp [he0]
    · have hstart : i < (((List.range e0.length).map
          (fun j => E.getD j 0 * (7 / 10))) : List ℚ).length := by
        simp [he0, hi]
      rw [foldl_addScaled_getD _ _ _ _ hstart,
        range_map_getD _ _ _ (by rw [he0]; exact hi)]
      have hne : (((e0 :: es).length : ℕ) : ℚ) ≠ 0 :=
        ne_of_gt (hlenpos e0 es)
      field_simp
      ring
  · intro e0 es i hi
    refine ⟨_, rfl, ?_⟩
    have hstart : i < (List.replicate e0.length (0 : ℚ)).length := by
      simp [hi]
    rw [foldl_addScaled_getD _ _ _ _ hstart]
    have hz : (List.replicate e0.length (0 : ℚ)).getD i 0 = 0 := by
      simp [List.getD_eq_getElem?_getD, List.getElem?_replicate, hi]
    rw [hz]
    have hne : (((e0 :: es).length : ℕ) : ℚ) ≠ 0 :=
      ne_of_gt (hlenpos e0 es)
    field_simp
  · intro e0 es i hi
    refine ⟨_, rfl, ?_⟩
    rw [map_div_getD]
    have hstart : i < (List.replicate e0.length (0 : ℚ)).length := by
      simp [hi]
    rw [foldl_addScaled_getD _ _ _ _ hstart]
    have hz : (List.replicate e0.length (0 : ℚ)).getD i 0 = 0 := by
      simp [List.getD_eq_getElem?_getD, List.getElem?_replicate, hi]
    rw [hz]
    ring_nf
  · intro db uid pid hpid
    rcases List.mem_map.mp hpid with ⟨row, hrow, hid⟩
    have hmem := List.mem_filter.mp hrow
    have hcond := of_decide_eq_true hmem.2
    exact ⟨row, hmem.1, hcond.1, hid, hcond.2⟩

/-- Counterexample for C3 as frozen: a user with prior stored embedding
`[1]` likes a single property of embedding `[0]`; the interactions-route
updater stores the plain average `[0]`, not `0.7 * 1 + 0.3 * 0 = 0.7`. -/
theorem claim3_counterexample :
    updateUserEmbeddingPlain [[0]] = some [0] ∧
    ([0] : List ℚ) ≠ [7 / 10 * 1 + 3 / 10 * 0] := by
  constructor
  · norm_num [updateUserEmbeddingPlain, addScaled]
  · intro h
    have := List.head_eq_of_cons_eq h
    norm_num at this

/-- Witness for the amended C3 at concrete input: prior `[1]`, one liked
embedding `[4]`. -/
theorem claim3_witness :
    ∃ r, updateUserEmbeddingWeighted (some (ParsedStored.arr [1])) [[4]]
        = some r ∧
      r.length = ([1] : List ℚ).length ∧
      r.getD 0 0 = 7 / 10 * ([1] : List ℚ).getD 0 0 +
        3 / 10 * (sumAt [[4]] 0 / ((([[4]] : List (List ℚ)).length : ℕ) : ℚ)) :=
  claim3_embedding_update.1 [1] [4] [] 0 (by simp) (by simp)

/-! ## Interaction recording lemmas -/

/-- The upsert predicate is unchanged by the upsert update map. -/
lemma upsert_map_pred (u p : String) (k : IType) (t : ℚ) (r : InteractionRow) :
    (decide ((if r.user_id = u ∧ r.property_id = p then
          { r with interaction_type := k, created_at := t }
        else r).user_id = u) &&
      decide ((if r.user_id = u ∧ r.property_id = p then
          { r with interaction_type := k, created_at := t }
        else r).property_id = p))
    = (decide (r.user_id = u) && decide (r.property_id = p)) := by
  by_cases hc : r.user_id = u ∧ r.property_id = p <;> simp [hc]

/-- Recording the same pair twice through the upsert handler equals
recording once at the later attempt (last write wins). -/
lemma upsertInteraction_twice (log : List InteractionRow) (u p : String)
    (k : IType) (t1 t2 : ℚ) :
    upsertInteraction (upsertInteraction log u p k t1) u p k t2 =
      upsertInteraction log u p k t2 := by
  unfold upsertInteraction
  by_cases h : log.any
      (fun r => decide (r.user_id = u) && decide (r.property_id = p)) = true
  · rw [if_pos h]
    have hany : (log.map (fun r =>
        if r.user_id = u ∧ r.property_id = p then
          { r with interaction_type := k, created_at := t1 }
        else r)).any
        (fun r => decide (r.user_id = u) && decide (r.property_id = p)) = true := by
      rw [List.any_map]
      have : ((fun r : InteractionRow =>
            decide (r.user_id = u) && decide (r.property_id = p)) ∘
          (fun r => if r.user_id = u ∧ r.property_id = p then
            { r with interaction_type := k, created_at := t1 }
          else r))
          = fun r => decide (r.user_id = u) && decide (r.property_id = p) := by
        funext r
        exact upsert_map_pred u p k t1 r
      rw [this]
      exact h
    rw [if_pos hany, if_pos h, List.map_map]
    apply List.map_congr_left
    intro r _
    by_cases hc : r.user_id = u ∧ r.property_id = p <;> simp [hc]
  · rw [if_neg h]
    have hany2 : (log ++ [InteractionRow.mk u p k t1]).any
        (fun r => decide (r.user_id = u) && decide (r.property_id = p)) = true := by
      simp
    rw [if_pos hany2, if_neg h, List.map_append]
    have hmapid : log.map (fun r =>
        if r.user_id = u ∧ r.property_id = p then
          { r with interaction_type := k, created_at := t2 }
        else r) = log := by
      have hall : ∀ r ∈ log,
          ¬(decide (r.user_id = u) && decide (r.property_id = p)) = true := by
        intro r hr hq
        exact h (List.any_eq_true.mpr ⟨r, hr, hq⟩)
      conv_rhs => rw [← List.map_id log]
      apply List.map_congr_left
      intro r hr
      have := hall r hr
      simp only [Bool.and_eq_true, decide_eq_true_eq, not_and] at this
      have hc : ¬(r.user_id = u ∧ r.property_id = p) := by
        intro hand
        rcases hand with ⟨h1, h2⟩
        rcases Classical.em (r.user_id = u) with he | he
        · exact this h1 h2
        · exact he h1
      simp [hc]
    rw [hmapid]
    simp

/-- Claim C8 (amended): the interactions handler upserts on the
`(user_id, property_id)` pair: a second identical attempt succeeds and
leaves the same `(user, property, kind)` log content, the stored row
taking the later timestamp; the check-then-insert variant is fully
idempotent; the user-interactions recording handler does a plain insert,
so a second attempt for the same pair fails with an error instead of
being a no-op. -/
theorem claim8_interaction_recording :
    (∀ (log : List InteractionRow) (u p : String) (k : IType) (t1 t2 : ℚ),
        upsertInteraction (upsertInteraction log u p k t1) u p k t2 =
          upsertInteraction log u p k t2) ∧
    (∀ (log : List InteractionRow) (u p : String) (k : IType) (t1 t2 : ℚ),
        (upsertInteraction (upsertInteraction log u p k t1) u p k t2).map projUPK =
          (upsertInteraction log u p k t1).map projUPK) ∧
    (∀ (log : List InteractionRow) (u p : String) (k : IType) (t : ℚ),
        insertIfAbsent (insertIfAbsent log u p k t) u p k t =
          insertIfAbsent log u p k t) ∧
    (∀ (log : List InteractionRow) (u p : String) (k : IType) (t : ℚ),
        (∃ r ∈ log, r.user_id = u ∧ r.property_id = p) →
        insertInteraction log u p k t = Except.error "23505") := by
  refine ⟨upsertInteraction_twice, ?_, ?_, ?_⟩
  · intro log u p k t1 t2
    rw [upsertInteraction_twice]
    unfold upsertInteraction
    by_cases h : log.any
        (fun r => decide (r.user_id = u) && decide (r.property_id = p)) = true
    · rw [if_pos h, if_pos h, List.map_map, List.map_map]
      apply List.map_congr_left
      intro r _
      by_cases hc : r.user_id = u ∧ r.property_id = p <;>
        simp [hc, projUPK]
    · rw [if_neg h, if_neg h]
      simp [projUPK]
  · intro log u p k t
    unfold insertIfAbsent
    by_cases h : log.any
        (fun r => decide (r.user_id = u) && decide (r.property_id = p)) = true
    · rw [if_pos h, if_pos h]
    · rw [if_neg h]
      have hany2 : (log ++ [InteractionRow.mk u p k t]).any
          (fun r => decide (r.user_id = u) && decide (r.property_id = p)) = true := by
        simp
      rw [if_pos hany2]
  · intro log u p k t hdup
    rcases hdup with ⟨r, hr, h1, h2⟩
    unfold insertInteraction
    rw [if_pos (List.any_eq_true.mpr ⟨r, hr, by simp [h1, h2]⟩)]

/-- Counterexample for C8 as frozen: re-recording `(u, p1, like)` through
the plain-insert handler returns an error rather than succeeding as a
no-op. -/
theorem claim8_counterexample :
    insertInteraction [⟨"u", "p1", IType.like, 1⟩] "u" "p1" IType.like 2 =
      Except.error "23505" := by
  rfl

/-- Witness for the amended C8 at a concrete log. -/
theorem claim8_witness :
    insertInteraction [⟨"u", "p1", IType.like, 1⟩] "u" "p1" IType.superlike 2 =
      Except.error "23505" :=
  claim8_interaction_recording.2.2.2 [⟨"u", "p1", IType.like, 1⟩] "u" "p1"
    IType.superlike 2 ⟨⟨"u", "p1", IType.like, 1⟩, by simp, rfl, rfl⟩

/-! ## Seen-property exclusion lemmas -/

/-- Everything surviving `excludeSeen` differs from every seen id. -/
lemma excludeSeen_ne (seen : List String) (l : List Property) (pid : String)
    (hpid : pid ∈ seen) : ∀ q ∈ excludeSeen seen l, q.id ≠ pid := by
  intro q hq
  unfold excludeSeen at hq
  by_cases h : 0 < seen.length
  · rw [if_pos h] at hq
    have hmem := List.mem_filter.mp hq
    have hnot := of_decide_eq_true hmem.2
    intro he
    exact hnot (he ▸ hpid)
  · rw [if_neg h] at hq
    have hnil : seen = [] := List.length_eq_zero.mp (Nat.eq_zero_of_not_pos h)
    rw [hnil] at hpid
    exact absurd hpid (List.not_mem_nil pid)

/-- The scored entries of location mode come from the location candidate
query. -/
lemma locationScoredList_property_mem (db : Db) (uid : String)
    (la ln radius : ℚ) (f : Filters) :
    ∀ e ∈ locationScoredList db uid la ln radius f,
      e.property ∈ locationCandidates db f (seenPropertyIds db uid) := by
  intro e he
  rw [locationScoredList, List.mem_insertionSort] at he
  rcases List.mem_filterMap.mp he with ⟨q, hq, hgq⟩
  by_cases hcond : candDistance la ln q ≤ ((radius : ℚ) : ℝ)
  · rw [if_pos hcond] at hgq
    cases hgq
    exact hq
  · rw [if_neg hcond] at hgq
    exact Option.noConfusion hgq

/-- The fallback candidates come from the seen-excluded filtered query. -/
lemma fallbackCandidates_mem (db : Db) (f : Filters) (seen : List String) :
    ∀ q ∈ fallbackCandidates db f seen,
      q ∈ excludeSeen seen (db.properties.filter (matchesFilters f)) := by
  intro q hq
  rw [fallbackCandidates, sortByCreatedDesc, List.mem_insertionSort] at hq
  exact hq

/-- The graph loop never emits a seen property. -/
lemma bsGraphLoop_not_seen (props : List Property) (seen : List String)
    (limit : ℕ) (pid : String) (hpid : pid ∈ seen) :
    ∀ (edges : List Edge) (acc : List BsScored),
      (∀ s ∈ acc, s.property.id ≠ pid) →
      ∀ e ∈ bsGraphLoop props seen limit edges acc, e.property.id ≠ pid
  | [], acc, hacc => by
      intro e he
      rw [bsGraphLoop] at he
      exact hacc e he
  | ed :: es, acc, hacc => by
      intro e he
      rw [bsGraphLoop] at he
      cases hfind : props.find? (fun p => decide (p.id = ed.target_property_id)) with
      | none =>
          rw [hfind] at he
          dsimp only at he
          exact bsGraphLoop_not_seen props seen limit pid hpid es acc hacc e he
      | some p =>
          rw [hfind] at he
          dsimp only at he
          by_cases hskip : p.id ∈ seen ∨
              acc.any (fun s => decide (s.property.id = p.id)) = true
          · rw [if_pos hskip] at he
            exact bsGraphLoop_not_seen props seen limit pid hpid es acc hacc e he
          · rw [if_neg hskip] at he
            have hpne : p.id ≠ pid := by
              intro hep
              exact hskip (Or.inl (hep ▸ hpid))
            have hacc2 : ∀ s ∈ acc ++
                [BsScored.mk p ((ed.similarity_score : ℚ) : ℝ) "graph_traversal"],
                s.property.id ≠ pid := by
              intro s hs
              rcases List.mem_append.mp hs with hs | hs
              · exact hacc s hs
              · rcases List.mem_singleton.mp hs with rfl
                exact hpne
            by_cases hlim : limit ≤ (acc ++
                [BsScored.mk p ((ed.similarity_score : ℚ) : ℝ)
                  "graph_traversal"]).length
            · rw [if_pos hlim] at he
              exact hacc2 e he
            · rw [if_neg hlim] at he
              exact bsGraphLoop_not_seen props seen limit pid hpid es _ hacc2 e he

/-- With no user embedding and an empty edge table, the backend service
returns the raw `getProperties` rows, which apply no seen filter. -/
lemma bsGetRecommendations_no_edges (db : Db) (uid : String) (limit : ℕ)
    (hemb : bsUserEmbedding db uid = none) (hedges : db.edges = []) :
    bsGetRecommendations db uid limit =
      BsResult.plain (getPropertiesModel db limit) := by
  rw [bsGetRecommendations, hemb, bsGraphPhase]
  have hfetch : bsGraphEdgesFetched db limit = [] := by
    rw [bsGraphEdgesFetched, hedges]
    simp [List.insertionSort]
  rw [hfetch]
  rfl

/-- Claim C4 (amended): no property the user liked or skipped appears in
the output of the scoring producers that apply the seen filter (location
scoring, both route fallback tiers, vector search, graph traversal,
backend final fallback), and a property whose only interactions are
superlikes is never excluded by the seen filter; however the empty-edge
branch of the backend service returns the raw `getProperties` rows, which
never exclude seen properties, so liked properties can reappear there. -/
theorem claim4_seen_exclusion :
    (∀ (db : Db) (uid pid : String), pid ∈ seenPropertyIds db uid →
      (∀ (la ln radius : ℚ) (f : Filters),
        ∀ e ∈ locationScoredList db uid la ln radius f, e.property.id ≠ pid) ∧
      (∀ (f : Filters) (limit : ℕ) (faults : Faults) (recs : List ScoredRec),
        noLocationBranch db uid f limit faults = RecResponse.ok recs →
        ∀ e ∈ recs, e.property.id ≠ pid) ∧
      (∀ (la ln radius : ℚ) (f : Filters) (limit : ℕ) (faults : Faults)
          (recs : List ScoredRec),
        locationModeBranch db uid la ln radius f limit faults =
          RecResponse.ok recs →
        ∀ e ∈ recs, e.property.id ≠ pid) ∧
      (∀ (emb : StoredEmbedding) (limit : ℕ),
        ∀ e ∈ bsVectorRecs db emb (seenPropertyIds db uid) limit,
          e.property.id ≠ pid) ∧
      (∀ (limit : ℕ) (edges : List Edge),
        ∀ e ∈ bsGraphLoop db.properties (seenPropertyIds db uid) limit edges [],
          e.property.id ≠ pid) ∧
      (∀ limit : ℕ, ∀ e ∈ bsFinalFallback db (seenPropertyIds db uid) limit,
          e.property.id ≠ pid)) ∧
    (∀ (db : Db) (uid pid : String),
      (∀ i ∈ db.interactions, i.user_id = uid → i.property_id = pid →
        i.interaction_type = IType.superlike) →
      pid ∉ seenPropertyIds db uid) ∧
    (∀ (db : Db) (uid : String) (limit : ℕ),
      bsUserEmbedding db uid = none → db.edges = [] →
      bsGetRecommendations db uid limit =
        BsResult.plain (getPropertiesModel db limit)) := by
  refine ⟨?_, ?_, ?_⟩
  · intro db uid pid hpid
    have hfbent : ∀ (f : Filters) (limit : ℕ) (s : String),
        ∀ e ∈ ((fallbackCandidates db f (seenPropertyIds db uid)).take limit).map
          (tagRouteFallback s), e.property.id ≠ pid := by
      intro f limit s e he
      rcases List.mem_map.mp he with ⟨q, hq, rfl⟩
      have hq2 : q ∈ fallbackCandidates db f (seenPropertyIds db uid) :=
        List.take_subset _ _ hq
      have := fallbackCandidates_mem db f _ q hq2
      simpa [tagRouteFallback] using excludeSeen_ne _ _ pid hpid q this
    refine ⟨?_, ?_, ?_, ?_, ?_, ?_⟩
    · intro la ln radius f e he
      have := locationScoredList_property_mem db uid la ln radius f e he
      exact excludeSeen_ne _ _ pid hpid e.property this
    · intro f limit faults recs hresp e he
      simp only [noLocationBranch] at hresp
      split_ifs at hresp with h1 h2 <;>
        simp only [RecResponse.ok.injEq] at hresp <;> subst hresp
      · exact absurd he (List.not_mem_nil e)
      · exact absurd he (List.not_mem_nil e)
      · exact hfbent f limit "fallback_no_location" e he
    · intro la ln radius f limit faults recs hresp e he
      simp only [locationModeBranch] at hresp
      split_ifs at hresp <;>
        simp only [RecResponse.ok.injEq] at hresp <;> subst hresp
      all_goals try exact absurd he (List.not_mem_nil e)
      all_goals try (simp only [List.take_nil, List.map_nil] at he)
      all_goals try exact absurd he (List.not_mem_nil e)
      all_goals first
        | exact hfbent f limit "fallback" e he
        | exact excludeSeen_ne _ _ pid hpid e.property (locationScoredList_property_mem db uid la ln radius f e (List.take_subset _ _ he))
    · intro emb limit e he
      rw [bsVectorRecs] at he
      have he2 := List.take_subset _ _ he
      rw [List.mem_insertionSort] at he2
      rcases List.mem_map.mp he2 with ⟨q, hq, rfl⟩
      rw [bsVectorCandidates] at hq
      simpa using excludeSeen_ne _ _ pid hpid q hq
    · intro limit edges e he
      exact bsGraphLoop_not_seen db.properties _ limit pid hpid edges []
        (by intro s hs; exact absurd hs (List.not_mem_nil s)) e he
    · intro limit e he
      rw [bsFinalFallback] at he
      rcases List.mem_map.mp he with ⟨q, hq, rfl⟩
      have hq2 : q ∈ sortByCreatedDesc (excludeSeen (seenPropertyIds db uid)
          db.properties) := List.take_subset _ _ hq
      rw [sortByCreatedDesc, List.mem_insertionSort] at hq2
      exact excludeSeen_ne _ _ pid hpid q hq2
  · intro db uid pid hall hpid
    rcases List.mem_map.mp hpid with ⟨row, hrow, hid⟩
    have hmem := List.mem_filter.mp hrow
    have hcond := of_decide_eq_true hmem.2
    have := hall row hmem.1 hcond.1 hid
    rcases hcond.2 with hk | hk <;> rw [hk] at this <;> exact IType.noConfusion this
  · intro db uid limit hemb hedges
    exact bsGetRecommendations_no_edges db uid limit hemb hedges

/-- Counterexample for C4 as frozen: the user liked the only property,
has no embedding, and the edge table is empty; the backend service then
answers with the raw recency rows, and the liked property appears among
the returned recommendations. -/
theorem claim4_counterexample :
    "p1" ∈ seenPropertyIds exDbSeenLiked "u" ∧
    bsGetRecommendations exDbSeenLiked "u" 50 =
      BsResult.plain [exPropAt11] ∧
    exPropAt11.id = "p1" := by
  refine ⟨by decide, rfl, rfl⟩

/-- Witness for the amended C4: a property the user only superliked is
not in the seen set of the concrete store. -/
theorem claim4_witness : "p2" ∉ seenPropertyIds exDbSuper "u" :=
  claim4_seen_exclusion.2.1 exDbSuper "u" "p2" (by decide)

/-! ## Graph traversal lemmas -/

/-- Every entry the graph loop emits (beyond the accumulator) carries the
similarity of one of the walked edges, whose target is that property. -/
lemma bsGraphLoop_score_from_edge (props : List Property) (seen : List String)
    (limit : ℕ) :
    ∀ (edges : List Edge) (acc : List BsScored),
      ∀ e ∈ bsGraphLoop props seen limit edges acc,
        e ∈ acc ∨ ∃ ed ∈ edges, ed.target_property_id = e.property.id ∧
          e.similarity_score = ((ed.similarity_score : ℚ) : ℝ)
  | [], acc => by
      intro e he
      rw [bsGraphLoop] at he
      exact Or.inl he
  | ed :: es, acc => by
      intro e he
      rw [bsGraphLoop] at he
      cases hfind : props.find? (fun p => decide (p.id = ed.target_property_id)) with
      | none =>
          rw [hfind] at he
          dsimp only at he
          rcases bsGraphLoop_score_from_edge props seen limit es acc e he with
            h | ⟨ed2, hed2, ht, hs⟩
          · exact Or.inl h
          · exact Or.inr ⟨ed2, List.mem_cons_of_mem _ hed2, ht, hs⟩
      | some p =>
          rw [hfind] at he
          dsimp only at he
          have hfs := List.find?_some hfind
          simp only [decide_eq_true_eq] at hfs
          have hpid : p.id = ed.target_property_id := hfs
          by_cases hskip : p.id ∈ seen ∨
              acc.any (fun s => decide (s.property.id = p.id)) = true
          · rw [if_pos hskip] at he
            rcases bsGraphLoop_score_from_edge props seen limit es acc e he with
              h | ⟨ed2, hed2, ht, hs⟩
            · exact Or.inl h
            · exact Or.inr ⟨ed2, List.mem_cons_of_mem _ hed2, ht, hs⟩
          · rw [if_neg hskip] at he
            by_cases hlim : limit ≤ (acc ++
                [BsScored.mk p ((ed.similarity_score : ℚ) : ℝ)
                  "graph_traversal"]).length
            · rw [if_pos hlim] at he
              rcases List.mem_append.mp he with h | h
              · exact Or.inl h
              · rcases List.mem_singleton.mp h with rfl
                exact Or.inr ⟨ed, List.mem_cons_self _ _, hpid.symm, rfl⟩
            · rw [if_neg hlim] at he
              rcases bsGraphLoop_score_from_edge props seen limit es _ e he with
                h | ⟨ed2, hed2, ht, hs⟩
              · rcases List.mem_append.mp h with h | h
                · exact Or.inl h
                · rcases List.mem_singleton.mp h with rfl
                  exact Or.inr ⟨ed, List.mem_cons_self _ _, hpid.symm, rfl⟩
              · exact Or.inr ⟨ed2, List.mem_cons_of_mem _ hed2, ht, hs⟩

/-- Claim C6 (amended): the backend graph strategy scores a candidate
with the similarity of a single fetched edge targeting it, the fetched
edges being drawn from the whole edge table regardless of what the user
liked; the SQL graph term starts from liked sources but scores a target
with `0.1` times the average incoming weight. -/
theorem claim6_graph_traversal :
    (∀ (props : List Property) (seen : List String) (limit : ℕ)
        (edges : List Edge),
        ∀ e ∈ bsGraphLoop props seen limit edges [],
          ∃ ed ∈ edges, ed.target_property_id = e.property.id ∧
            e.similarity_score = ((ed.similarity_score : ℚ) : ℝ)) ∧
    (∀ (db : Db) (uid t : String), t ∉ likedOnlyIds db uid →
        graphBoostEdges db uid t ≠ [] →
        graphBoostScore db uid t =
          some (((graphBoostEdges db uid t).map
              (fun e => e.similarity_score)).sum /
            ((graphBoostEdges db uid t).length : ℚ) * (1 / 10))) := by
  constructor
  · intro props seen limit edges e he
    rcases bsGraphLoop_score_from_edge props seen limit edges [] e he with h | h
    · exact absurd h (List.not_mem_nil e)
    · exact h
  · intro db uid t ht hne
    unfold graphBoostScore
    rw [if_neg ht, if_neg (by simpa [List.isEmpty_iff] using hne)]

/-- Counterexample for C6 as frozen: with no liked property at all, the
graph strategy still returns the target of the highest edge, scored with
that single edge weight; and on the SQL side a target reached from one
liked source scores `0.9 * 0.1 = 0.09`, not the edge weight `0.9`. -/
theorem claim6_counterexample :
    likedOnlyIds exDbGraphNoLikes "u" = [] ∧
    bsGetRecommendations exDbGraphNoLikes "u" 50 =
      BsResult.tagged [BsScored.mk exPropT
        ((exEdgeST.similarity_score : ℚ) : ℝ) "graph_traversal"] ∧
    graphBoostScore exDbGraphLiked "u" "T" = some (9 / 100) ∧
    (9 / 100 : ℚ) ≠ exEdgeST.similarity_score := by
  refine ⟨rfl, rfl, ?_, ?_⟩
  · have h1 : ¬("T" ∈ likedOnlyIds exDbGraphLiked "u") := by decide
    have h2 : graphBoostEdges exDbGraphLiked "u" "T" = [exEdgeST] := rfl
    unfold graphBoostScore
    rw [if_neg h1, h2]
    norm_num [exEdgeST]
  · norm_num [exEdgeST]

/-- Witness for the amended C6 at the concrete liked store. -/
theorem claim6_witness :
    graphBoostScore exDbGraphLiked "u" "T" =
      some (((graphBoostEdges exDbGraphLiked "u" "T").map
          (fun e => e.similarity_score)).sum /
        ((graphBoostEdges exDbGraphLiked "u" "T").length : ℚ) * (1 / 10)) :=
  claim6_graph_traversal.2 exDbGraphLiked "u" "T" (by decide) (by decide)

/-! ## Fallthrough lemmas -/

/-- The query point of `exDbAt11` sits on its only property. -/
lemma candDistance_exPropAt11 : candDistance 1 1 exPropAt11 = 0 := by
  unfold candDistance
  norm_num [exPropAt11, calculateDistance_self]

/-- The location scoring of the one-property store: a single scored
entry. -/
lemma locationScoredList_exDbAt11 :
    locationScoredList exDbAt11 "u" 1 1 100 Filters.empty =
      [ScoredRec.mk exPropAt11
        (1 - candDistance 1 1 exPropAt11 / ((100 : ℚ) : ℝ))
        (some (candDistance 1 1 exPropAt11)) "location_based"] := by
  have hc : locationCandidates exDbAt11 Filters.empty
      (seenPropertyIds exDbAt11 "u") = [exPropAt11] := by decide
  have hcond : candDistance 1 1 exPropAt11 ≤ ((100 : ℚ) : ℝ) := by
    rw [candDistance_exPropAt11]
    norm_num
  simp only [locationScoredList]
  rw [hc]
  simp only [List.filterMap_cons, List.filterMap_nil]
  try dsimp only
  rw [if_pos hcond]
  simp [List.insertionSort, List.orderedInsert]

/-- The `excludeSeen` yields a sublist. -/
lemma excludeSeen_sublist (seen : List String) (l : List Property) :
    List.Sublist (excludeSeen seen l) l := by
  unfold excludeSeen
  split_ifs
  · exact List.filter_sublist l
  · exact List.Sublist.refl l

/-- Claim C5 (amended): when location scoring yields fewer than
`min limit 10` candidates, the route replaces the location results with
the fallback query results (tagged `fallback`), discarding the location
scores rather than merging; the fallback output never repeats a property
when the store has distinct ids. -/
theorem claim5_fallthrough :
    (∀ (db : Db) (uid : String) (la ln radius : ℚ) (f : Filters) (limit : ℕ),
        ¬(locationCandidates db f (seenPropertyIds db uid)).isEmpty = true →
        (locationScoredList db uid la ln radius f).length < min limit 10 →
        locationModeBranch db uid la ln radius f limit Faults.none =
          (if (fallbackCandidates db f (seenPropertyIds db uid)).isEmpty then
            RecResponse.ok []
          else
            RecResponse.ok (((fallbackCandidates db f
                (seenPropertyIds db uid)).take limit).map
              (tagRouteFallback "fallback")))) ∧
    (∀ (db : Db) (f : Filters) (seen : List String) (limit : ℕ) (s : String),
        (db.properties.map (fun p => p.id)).Nodup →
        ((((fallbackCandidates db f seen).take limit).map
          (tagRouteFallback s)).map (fun e => e.property.id)).Nodup) := by
  constructor
  · intro db uid la ln radius f limit hlp hlen
    have hnotle : ¬(min limit 10 ≤ (locationScoredList db uid la ln radius f).length) :=
      Nat.not_le.mpr hlen
    simp [locationModeBranch, Faults.none, hlp, hnotle]
  · intro db f seen limit s h
    have h1 : ((db.properties.filter (matchesFilters f)).map
        (fun p => p.id)).Nodup :=
      h.sublist (List.Sublist.map _ (List.filter_sublist db.properties))
    have h2 : ((excludeSeen seen (db.properties.filter
        (matchesFilters f))).map (fun p => p.id)).Nodup :=
      h1.sublist (List.Sublist.map _ (excludeSeen_sublist seen _))
    have hperm : List.Perm (fallbackCandidates db f seen)
        (excludeSeen seen (db.properties.filter (matchesFilters f))) :=
      List.perm_insertionSort _ _
    have h3 : ((fallbackCandidates db f seen).map (fun p => p.id)).Nodup :=
      ((hperm.map (fun p => p.id)).nodup_iff).mpr h2
    have h4 : (((fallbackCandidates db f seen).take limit).map
        (fun p => p.id)).Nodup :=
      h3.sublist (List.Sublist.map _ (List.take_sublist limit _))
    have heq : (((fallbackCandidates db f seen).take limit).map
        (tagRouteFallback s)).map (fun e => e.property.id) =
        ((fallbackCandidates db f seen).take limit).map (fun p => p.id) := by
      rw [List.map_map]
      apply List.map_congr_left
      intro q _
      simp [tagRouteFallback]
    rw [heq]
    exact h4

/-- Counterexample for C5 as frozen: the location strategy scores the one
in-radius property, falls short of the minimum, and the final output
carries only the fallback-tagged version of it: the location-scored tuple
is dropped, not merged. -/
theorem claim5_counterexample :
    locationScoredList exDbAt11 "u" 1 1 100 Filters.empty =
      [ScoredRec.mk exPropAt11
        (1 - candDistance 1 1 exPropAt11 / ((100 : ℚ) : ℝ))
        (some (candDistance 1 1 exPropAt11)) "location_based"] ∧
    (locationScoredList exDbAt11 "u" 1 1 100 Filters.empty).length <
      min 50 10 ∧
    locationModeBranch exDbAt11 "u" 1 1 100 Filters.empty 50 Faults.none =
      RecResponse.ok [tagRouteFallback "fallback" exPropAt11] ∧
    (tagRouteFallback "fallback" exPropAt11).reason ≠ "location_based" ∧
    (tagRouteFallback "fallback" exPropAt11).similarity_score ≠
      1 - candDistance 1 1 exPropAt11 / ((100 : ℚ) : ℝ) := by
  have hsc := locationScoredList_exDbAt11
  have hlen : (locationScoredList exDbAt11 "u" 1 1 100 Filters.empty).length <
      min 50 10 := by
    rw [hsc]
    decide
  refine ⟨hsc, hlen, ?_, ?_, ?_⟩
  · have hlp : ¬(locationCandidates exDbAt11 Filters.empty
        (seenPropertyIds exDbAt11 "u")).isEmpty = true := by decide
    have hfb : fallbackCandidates exDbAt11 Filters.empty
        (seenPropertyIds exDbAt11 "u") = [exPropAt11] := by decide
    have hnotle : ¬(min 50 10 ≤
        (locationScoredList exDbAt11 "u" 1 1 100 Filters.empty).length) :=
      Nat.not_le.mpr hlen
    have h10 : ¬((10 : ℕ) ≤
        (locationScoredList exDbAt11 "u" 1 1 100 Filters.empty).length) := by
      rw [locationScoredList_exDbAt11]
      decide
    simp [locationModeBranch, Faults.none, hlp, hnotle, h10, hfb]
  · simp [tagRouteFallback]
  · rw [candDistance_exPropAt11]
    simp only [tagRouteFallback]
    norm_num

/-- Witness for the amended C5 at the one-property store. -/
theorem claim5_witness :
    locationModeBranch exDbAt11 "u" 1 1 100 Filters.empty 50 Faults.none =
      (if (fallbackCandidates exDbAt11 Filters.empty
          (seenPropertyIds exDbAt11 "u")).isEmpty then RecResponse.ok []
        else
          RecResponse.ok (((fallbackCandidates exDbAt11 Filters.empty
              (seenPropertyIds exDbAt11 "u")).take 50).map
            (tagRouteFallback "fallback"))) :=
  claim5_fallthrough.1 exDbAt11 "u" 1 1 100 Filters.empty 50 (by decide)
    (by rw [locationScoredList_exDbAt11]; decide)

/-! ## Reason tag lemmas -/

/-- Every location-scored entry is tagged `location_based`. -/
lemma locationScoredList_reason (db : Db) (uid : String) (la ln radius : ℚ)
    (f : Filters) :
    ∀ e ∈ locationScoredList db uid la ln radius f,
      e.reason = "location_based" := by
  intro e he
  rw [locationScoredList, List.mem_insertionSort] at he
  rcases List.mem_filterMap.mp he with ⟨q, hq, hgq⟩
  by_cases hcond : candDistance la ln q ≤ ((radius : ℚ) : ℝ)
  · rw [if_pos hcond] at hgq
    cases hgq
    rfl
  · rw [if_neg hcond] at hgq
    exact Option.noConfusion hgq

/-- Every entry the graph loop emits beyond the accumulator is tagged
`graph_traversal`. -/
lemma bsGraphLoop_reason (props : List Property) (seen : List String)
    (limit : ℕ) :
    ∀ (edges : List Edge) (acc : List BsScored),
      (∀ s ∈ acc, s.reason = "graph_traversal") →
      ∀ e ∈ bsGraphLoop props seen limit edges acc,
        e.reason = "graph_traversal"
  | [], acc, hacc => by
      intro e he
      rw [bsGraphLoop] at he
      exact hacc e he
  | ed :: es, acc, hacc => by
      intro e he
      rw [bsGraphLoop] at he
      cases hfind : props.find? (fun p => decide (p.id = ed.target_property_id)) with
      | none =>
          rw [hfind] at he
          dsimp only at he
          exact bsGraphLoop_reason props seen limit es acc hacc e he
      | some p =>
          rw [hfind] at he
          dsimp only at he
          by_cases hskip : p.id ∈ seen ∨
              acc.any (fun s => decide (s.property.id = p.id)) = true
          · rw [if_pos hskip] at he
            exact bsGraphLoop_reason props seen limit es acc hacc e he
          · rw [if_neg hskip] at he
            have hacc2 : ∀ s ∈ acc ++
                [BsScored.mk p ((ed.similarity_score : ℚ) : ℝ)
                  "graph_traversal"], s.reason = "graph_traversal" := by
              intro s hs
              rcases List.mem_append.mp hs with hs | hs
              · exact hacc s hs
              · rcases List.mem_singleton.mp hs with rfl
                rfl
            by_cases hlim : limit ≤ (acc ++
                [BsScored.mk p ((ed.similarity_score : ℚ) : ℝ)
                  "graph_traversal"]).length
            · rw [if_pos hlim] at he
              exact hacc2 e he
            · rw [if_neg hlim] at he
              exact bsGraphLoop_reason props seen limit es _ hacc2 e he

/-- Claim C7 (amended): route recommendations are tagged
`fallback_no_location`, `location_based` or `fallback`; backend-service
recommendations `vector_similarity`, `graph_traversal` or `fallback`; and
a user with no embedding and no edges receives the raw recency-ordered
property rows of `getProperties`, which carry no reason tag at all. -/
theorem claim7_reason_tags :
    (∀ (db : Db) (uid : String) (f : Filters) (limit : ℕ) (faults : Faults)
        (recs : List ScoredRec),
        noLocationBranch db uid f limit faults = RecResponse.ok recs →
        ∀ e ∈ recs, e.reason = "fallback_no_location") ∧
    (∀ (db : Db) (uid : String) (la ln radius : ℚ) (f : Filters) (limit : ℕ)
        (faults : Faults) (recs : List ScoredRec),
        locationModeBranch db uid la ln radius f limit faults =
          RecResponse.ok recs →
        ∀ e ∈ recs, e.reason = "location_based" ∨ e.reason = "fallback") ∧
    (∀ (db : Db) (emb : StoredEmbedding) (seen : List String) (limit : ℕ),
        ∀ e ∈ bsVectorRecs db emb seen limit,
          e.reason = "vector_similarity") ∧
    (∀ (props : List Property) (seen : List String) (limit : ℕ)
        (edges : List Edge),
        ∀ e ∈ bsGraphLoop props seen limit edges [],
          e.reason = "graph_traversal") ∧
    (∀ (db : Db) (seen : List String) (limit : ℕ),
        ∀ e ∈ bsFinalFallback db seen limit, e.reason = "fallback") ∧
    (∀ (db : Db) (uid : String) (limit : ℕ),
        bsUserEmbedding db uid = none → db.edges = [] →
        bsGetRecommendations db uid limit =
          BsResult.plain (getPropertiesModel db limit)) := by
  refine ⟨?_, ?_, ?_, ?_, ?_, ?_⟩
  · intro db uid f limit faults recs hresp e he
    simp only [noLocationBranch] at hresp
    split_ifs at hresp <;>
      simp only [RecResponse.ok.injEq] at hresp <;> subst hresp
    · exact absurd he (List.not_mem_nil e)
    · exact absurd he (List.not_mem_nil e)
    · rcases List.mem_map.mp he with ⟨q, hq, rfl⟩
      rfl
  · intro db uid la ln radius f limit faults recs hresp e he
    simp only [locationModeBranch] at hresp
    split_ifs at hresp <;>
      simp only [RecResponse.ok.injEq] at hresp <;> subst hresp
    all_goals try exact absurd he (List.not_mem_nil e)
    all_goals try (simp only [List.take_nil, List.map_nil] at he)
    all_goals try exact absurd he (List.not_mem_nil e)
    all_goals first
      | exact Or.inr (by rcases List.mem_map.mp he with ⟨q, hq, rfl⟩; rfl)
      | exact Or.inl (locationScoredList_reason db uid la ln radius f e (List.take_subset _ _ he))
  · intro db emb seen limit e he
    rw [bsVectorRecs] at he
    have he2 := List.take_subset _ _ he
    rw [List.mem_insertionSort] at he2
    rcases List.mem_map.mp he2 with ⟨q, hq, rfl⟩
    rfl
  · intro props seen limit edges e he
    exact bsGraphLoop_reason props seen limit edges []
      (by intro s hs; exact absurd hs (List.not_mem_nil s)) e he
  · intro db seen limit e he
    rw [bsFinalFallback] at he
    rcases List.mem_map.mp he with ⟨q, hq, rfl⟩
    rfl
  · intro db uid limit hemb hedges
    exact bsGetRecommendations_no_edges db uid limit hemb hedges

/-- Counterexample for C7 as frozen: a request without a valid location
is answered with reason `fallback_no_location`, which is outside the
claimed tag set; and a user with no embedding and no edges receives
untagged raw rows, not `reason = fallback`. -/
theorem claim7_counterexample :
    postRecommendations exDbAt11 Faults.none
        (some (RecRequest.mk (some "u") none 100 Filters.empty 50)) =
      RecResponse.ok [tagRouteFallback "fallback_no_location" exPropAt11] ∧
    "fallback_no_location" ∉ (["location_priority", "vector_similarity",
      "graph_traversal", "fallback"] : List String) ∧
    bsGetRecommendations exDbNoEmbUser "u" 50 =
      BsResult.plain [exPropAt11] := by
  refine ⟨rfl, by decide, rfl⟩

/-- Witness for the amended C7: the no-embedding, no-edge store gets the
raw `getProperties` rows. -/
theorem claim7_witness :
    bsGetRecommendations exDbNoEmbUser "u" 7 =
      BsResult.plain (getPropertiesModel exDbNoEmbUser 7) :=
  claim7_reason_tags.2.2.2.2.2 exDbNoEmbUser "u" 7 rfl rfl

/-! ## Response shape lemmas -/

/-- The no-location branch always answers with a recommendations list. -/
lemma noLocationBranch_ok (db : Db) (uid : String) (f : Filters) (limit : ℕ)
    (faults : Faults) :
    ∃ recs, noLocationBranch db uid f limit faults = RecResponse.ok recs := by
  simp only [noLocationBranch]
  split_ifs <;> exact ⟨_, rfl⟩

/-- The location branch always answers with a recommendations list. -/
lemma locationModeBranch_ok (db : Db) (uid : String) (la ln radius : ℚ)
    (f : Filters) (limit : ℕ) (faults : Faults) :
    ∃ recs, locationModeBranch db uid la ln radius f limit faults =
      RecResponse.ok recs := by
  simp only [locationModeBranch]
  split_ifs <;> exact ⟨_, rfl⟩

/-- Claim C9 (amended): once the body parses and the server client
exists, the endpoint answers with a recommendations list (possibly empty)
or the single missing-user-id validation error; a missing user id always
draws that validation error; and a failing store query in either branch
yields the empty list rather than an error. -/
theorem claim9_response_shape :
    (∀ (db : Db) (faults : Faults) (req : RecRequest),
        faults.clientOk = true →
        (∃ recs, postRecommendations db faults (some req) =
          RecResponse.ok recs) ∨
        postRecommendations db faults (some req) =
          RecResponse.validationError "User ID is required") ∧
    (∀ (db : Db) (faults : Faults) (req : RecRequest), req.userId = none →
        postRecommendations db faults (some req) =
          RecResponse.validationError "User ID is required") ∧
    (∀ (db : Db) (uid : String) (f : Filters) (limit : ℕ) (faults : Faults),
        faults.fallbackQueryFails = true →
        noLocationBranch db uid f limit faults = RecResponse.ok []) ∧
    (∀ (db : Db) (uid : String) (la ln radius : ℚ) (f : Filters) (limit : ℕ)
        (faults : Faults), faults.locationQueryFails = true →
        locationModeBranch db uid la ln radius f limit faults =
          RecResponse.ok []) := by
  refine ⟨?_, ?_, ?_, ?_⟩
  · intro db faults req hclient
    cases hu : req.userId with
    | none =>
        right
        simp [postRecommendations, hu]
    | some uid =>
        left
        simp only [postRecommendations, hu, hclient, Bool.not_true,
          Bool.false_eq_true, if_false]
        cases hl : req.location with
        | none => exact noLocationBranch_ok db uid req.filters req.limit faults
        | some pair =>
            rcases pair with ⟨la, ln⟩
            dsimp only
            split_ifs with hv
            · exact locationModeBranch_ok db uid la ln req.searchRadius
                req.filters req.limit faults
            · exact noLocationBranch_ok db uid req.filters req.limit faults
  · intro db faults req hu
    simp [postRecommendations, hu]
  · intro db uid f limit faults h
    unfold noLocationBranch
    rw [if_pos h]
  · intro db uid la ln radius f limit faults h
    unfold locationModeBranch
    rw [if_pos h]

/-- Counterexample for C9 as frozen: a request whose body does not parse
reaches the catch block and is answered with a 500 error, which is
neither a ranked list nor the missing-user-id validation error. -/
theorem claim9_counterexample :
    postRecommendations exDbAt11 Faults.none none =
      RecResponse.serverError "Internal server error" ∧
    postRecommendations exDbAt11 Faults.none none ≠ RecResponse.ok [] ∧
    postRecommendations exDbAt11 Faults.none none ≠
      RecResponse.validationError "User ID is required" := by
  have h0 : postRecommendations exDbAt11 Faults.none none =
      RecResponse.serverError "Internal server error" := rfl
  refine ⟨h0, ?_, ?_⟩
  · rw [h0]
    simp
  · rw [h0]
    simp

/-- Witness for the amended C9: a failing fallback query in the
no-location branch yields the empty list. -/
theorem claim9_witness :
    noLocationBranch exDbAt11 "u" Filters.empty 5 (Faults.mk true false true) =
      RecResponse.ok [] :=
  claim9_response_shape.2.2.1 exDbAt11 "u" Filters.empty 5
    (Faults.mk true false true) rfl

/-! ## Determinism and fallback ordering -/

/-- Claim C10: the computation is a function of the store and the request
(identical calls agree), and every fallback tier is ordered by creation
timestamp descending, notwithstanding the "random ordering" comments. -/
theorem claim10_determinism_and_fallback_order :
    (∀ (db : Db) (faults : Faults) (b1 b2 : Option RecRequest), b1 = b2 →
        postRecommendations db faults b1 = postRecommendations db faults b2) ∧
    (∀ (db : Db) (f : Filters) (seen : List String),
        List.Pairwise (fun a b : Property => b.created_at ≤ a.created_at)
          (fallbackCandidates db f seen)) ∧
    (∀ (db : Db) (seen : List String) (limit : ℕ),
        List.Pairwise (fun a b : BsScored =>
            b.property.created_at ≤ a.property.created_at)
          (bsFinalFallback db seen limit)) ∧
    (∀ (db : Db) (limit : ℕ),
        List.Pairwise (fun a b : Property => b.created_at ≤ a.created_at)
          (getPropertiesModel db limit)) := by
  have hsorted : ∀ l : List Property,
      List.Pairwise (fun a b : Property => b.created_at ≤ a.created_at)
        (sortByCreatedDesc l) := by
    intro l
    haveI : IsTotal Property (fun a b => b.created_at ≤ a.created_at) :=
      ⟨fun a b => le_total b.created_at a.created_at⟩
    haveI : IsTrans Property (fun a b => b.created_at ≤ a.created_at) :=
      ⟨fun a b c hab hbc => le_trans hbc hab⟩
    exact List.sorted_insertionSort _ l
  refine ⟨?_, ?_, ?_, ?_⟩
  · intro db faults b1 b2 h
    rw [h]
  · intro db f seen
    exact hsorted _
  · intro db seen limit
    have h2 : List.Pairwise (fun a b : Property => b.created_at ≤ a.created_at)
        ((sortByCreatedDesc (excludeSeen seen db.properties)).take limit) :=
      (hsorted _).sublist (List.take_sublist _ _)
    rw [bsFinalFallback]
    exact (List.pairwise_map).mpr h2
  · intro db limit
    exact (hsorted db.properties).sublist (List.take_sublist _ _)

/-- Witness for C10: two identical calls agree on the concrete store. -/
theorem claim10_witness :
    postRecommendations exDbAt11 Faults.none none =
      postRecommendations exDbAt11 Faults.none none :=
  claim10_determinism_and_fallback_order.1 exDbAt11 Faults.none none none rfl

end REAL
